import Mathlib

/-!
# Verification of the sota-extractor task database

Shallow embedding of `sota_extractor/taskdb.py` and the precision/recall
block of `sota_extractor/eval_all.py`.

Input records (Python dictionaries parsed from JSON) are modelled as
structures whose fields are `Option`-valued: `none` means the key is absent
from the dictionary.  Reading a required key from a record that lacks it is
a `KeyError` in Python; constructors therefore return `Except String _`,
with `Except.error` carrying the name of the missing key.  A `none` entry
inside a list of sub-records models a null/falsy element, which the source
skips.  The registry `TaskDb.tasks` (an insertion-ordered Python dict) is
modelled as an association list `List (String × Task)`.
-/

namespace SotaExtractor

/-- The free-form `metrics` mapping of a SOTA row; the program never
interprets it, only stores and re-emits it verbatim. -/
abbrev Metrics := List (String × String)

/-- Input record for `Link.__init__`: both keys optional. -/
structure LinkRec where
  title : Option String
  url : Option String
  deriving Repr, DecidableEq

/-- `Link`: a named URL reference (`taskdb.py`, class `Link`). -/
structure Link where
  title : String
  url : String
  deriving Repr, DecidableEq

/-- `Link.__init__`: fields default to the empty string when the key is
absent. -/
def Link.ofDict (d : LinkRec) : Link :=
  { title := d.title.getD "", url := d.url.getD "" }

/-- `Link.to_dict`: emits both keys unconditionally. -/
def Link.to_dict (l : Link) : Link :=
  { title := l.title, url := l.url }

/-- Input record for `SotaRow.__init__`. -/
structure SotaRowRec where
  model_name : Option String
  paper_title : Option String
  paper_url : Option String
  paper_date : Option String
  code_links : Option (List (Option LinkRec))
  model_links : Option (List (Option LinkRec))
  metrics : Option Metrics
  deriving Repr, DecidableEq

/-- `SotaRow`: one leaderboard entry (`taskdb.py`, class `SotaRow`). -/
structure SotaRow where
  model_name : String
  paper_title : String
  paper_url : String
  paper_date : Option String
  code_links : List Link
  model_links : List Link
  metrics : Metrics
  deriving Repr, DecidableEq

/-- The loop `for code_d in d[k]: if code_d: append(Link(code_d))` applied
to an optional key: absent key gives the empty list, null entries are
skipped. -/
def linkListOf (o : Option (List (Option LinkRec))) : List Link :=
  (o.getD []).filterMap (fun x => x.map Link.ofDict)

/-- `SotaRow.__init__`: `d["model_name"]` is read unconditionally first and
`d["metrics"]` unconditionally last; every other key is guarded by a
presence check. -/
def SotaRow.ofDict (d : SotaRowRec) : Except String SotaRow :=
  match d.model_name with
  | none => Except.error "KeyError: model_name"
  | some mn =>
    match d.metrics with
    | none => Except.error "KeyError: metrics"
    | some ms =>
      Except.ok
        { model_name := mn
          paper_title := d.paper_title.getD ""
          paper_url := d.paper_url.getD ""
          paper_date := d.paper_date
          code_links := linkListOf d.code_links
          model_links := linkListOf d.model_links
          metrics := ms }

/-- Serialized form of a SOTA row (`SotaRow.to_dict`): every key emitted. -/
structure SotaRowDict where
  model_name : String
  paper_title : String
  paper_url : String
  paper_date : Option String
  code_links : List Link
  model_links : List Link
  metrics : Metrics
  deriving Repr, DecidableEq

/-- `SotaRow.to_dict`. -/
def SotaRow.to_dict (r : SotaRow) : SotaRowDict :=
  { model_name := r.model_name
    paper_title := r.paper_title
    paper_url := r.paper_url
    paper_date := r.paper_date
    code_links := r.code_links.map Link.to_dict
    model_links := r.model_links.map Link.to_dict
    metrics := r.metrics }

/-! ## The precision/recall block of `eval_all.py`

`prec` and `recal` start at 0.  The precision guard tests the denominator
before dividing; the recall guard divides *inside the test*
(`if len(tp) / (len(tp) + len(fn)) != 0:`), so it raises
`ZeroDivisionError` whenever `len(tp) + len(fn) == 0`. -/

/-- The per-task precision/recall computation of `eval_all.py`, given the
sizes of the `tp`, `fn`, `fp` sets returned by `eval_task`. -/
def eval_precision_recall (tp fn fp : Nat) : Except String (Rat × Rat) :=
  let prec : Rat := if tp + fp ≠ 0 then (tp : Rat) / ((tp : Rat) + (fp : Rat)) else 0
  if tp + fn = 0 then
    Except.error "ZeroDivisionError"
  else
    let r : Rat := (tp : Rat) / ((tp : Rat) + (fn : Rat))
    let recal : Rat := if r ≠ 0 then r else 0
    Except.ok (prec, recal)

/-! ## Datasets -/

/-- The optional `sota` sub-record of a dataset record: `metrics` and
`rows` keys, each optional. -/
structure SotaRec where
  metrics : Option (List String)
  rows : Option (List (Option SotaRowRec))
  deriving Repr, DecidableEq

/-- Input record for `Dataset.__init__`; `subdatasets` makes it recursive. -/
inductive DatasetRec where
  | mk (dataset : Option String) (subdataset : Option String)
      (description : Option String) (sota : Option SotaRec)
      (subdatasets : Option (List (Option DatasetRec)))
      (dataset_links : Option (List (Option LinkRec)))
      (dataset_citations : Option (List (Option LinkRec)))
  deriving Repr

def DatasetRec.dataset : DatasetRec → Option String
  | .mk v _ _ _ _ _ _ => v

def DatasetRec.subdataset : DatasetRec → Option String
  | .mk _ v _ _ _ _ _ => v

def DatasetRec.description : DatasetRec → Option String
  | .mk _ _ v _ _ _ _ => v

def DatasetRec.sota : DatasetRec → Option SotaRec
  | .mk _ _ _ v _ _ _ => v

def DatasetRec.subdatasets : DatasetRec → Option (List (Option DatasetRec))
  | .mk _ _ _ _ v _ _ => v

def DatasetRec.dataset_links : DatasetRec → Option (List (Option LinkRec))
  | .mk _ _ _ _ _ v _ => v

def DatasetRec.dataset_citations : DatasetRec → Option (List (Option LinkRec))
  | .mk _ _ _ _ _ _ v => v

/-- `Dataset` (`taskdb.py`, class `Dataset`).  The Python object keeps a
back-reference `parent` (the owning `Dataset` or `None`); serialization
only ever tests its truthiness, so the embedding stores that truthiness as
the Boolean `parent`. -/
inductive Dataset where
  | mk (dataset : String) (description : String) (parent : Bool)
      (sota_metrics : List String) (sota_rows : List SotaRow)
      (subdatasets : List Dataset)
      (dataset_links : List Link) (dataset_citations : List Link)
  deriving Repr

def Dataset.dataset : Dataset → String
  | .mk v _ _ _ _ _ _ _ => v

def Dataset.description : Dataset → String
  | .mk _ v _ _ _ _ _ _ => v

def Dataset.parent : Dataset → Bool
  | .mk _ _ v _ _ _ _ _ => v

def Dataset.sota_metrics : Dataset → List String
  | .mk _ _ _ v _ _ _ _ => v

def Dataset.sota_rows : Dataset → List SotaRow
  | .mk _ _ _ _ v _ _ _ => v

def Dataset.subdatasets : Dataset → List Dataset
  | .mk _ _ _ _ _ v _ _ => v

def Dataset.dataset_links : Dataset → List Link
  | .mk _ _ _ _ _ _ v _ => v

def Dataset.dataset_citations : Dataset → List Link
  | .mk _ _ _ _ _ _ _ v => v

/-- The loop `for sota_row_d in d["sota"]["rows"]: if sota_row_d:
append(SotaRow(sota_row_d))`: null entries skipped, a failing row
construction propagates. -/
def sotaRowsOf : List (Option SotaRowRec) → Except String (List SotaRow)
  | [] => Except.ok []
  | none :: rest => sotaRowsOf rest
  | some r :: rest =>
    match SotaRow.ofDict r with
    | Except.error e => Except.error e
    | Except.ok x =>
      match sotaRowsOf rest with
      | Except.error e => Except.error e
      | Except.ok xs => Except.ok (x :: xs)

/-- Assembling a `Dataset` once the name is known: any failure from the
row or subdataset constructions propagates, otherwise the object is built
with citations appended onto the links. -/
def combineDataset (name : String) (description : Option String) (parent : Bool)
    (sota_metrics : List String)
    (dataset_links dataset_citations : Option (List (Option LinkRec)))
    (rowsRes : Except String (List SotaRow)) (subsRes : Except String (List Dataset)) :
    Except String Dataset :=
  match rowsRes with
  | Except.error e => Except.error e
  | Except.ok sota_rows =>
    match subsRes with
    | Except.error e => Except.error e
    | Except.ok subs =>
      Except.ok (.mk name (description.getD "") parent sota_metrics sota_rows subs
        (linkListOf dataset_links ++ linkListOf dataset_citations) [])

mutual

/-- `Dataset.__init__`: name from `subdataset` when that key is present,
else from `dataset` (a `KeyError` when both are absent); `sota.metrics`
and `sota.rows` read when present; nested subdatasets constructed with
`parent=self`; `dataset_citations` entries appended onto `dataset_links`
while the stored `dataset_citations` list stays empty. -/
def Dataset.ofDict (parent : Bool) : DatasetRec → Except String Dataset
  | .mk dataset subdataset description sota subdatasets dataset_links dataset_citations =>
    match subdataset, dataset with
    | none, none => Except.error "KeyError: dataset"
    | subdataset, dataset =>
      combineDataset
        (match subdataset with
          | some s => s
          | none => dataset.getD "")
        description parent
        (match sota with
          | some s => s.metrics.getD []
          | none => [])
        dataset_links dataset_citations
        (match sota with
          | some s => sotaRowsOf (s.rows.getD [])
          | none => Except.ok [])
        (match subdatasets with
          | some l => Dataset.ofDictList true l
          | none => Except.ok [])

/-- The loop over a list of nested dataset records: null entries skipped,
each surviving record constructed with the given parent flag. -/
def Dataset.ofDictList (parent : Bool) : List (Option DatasetRec) → Except String (List Dataset)
  | [] => Except.ok []
  | none :: rest => Dataset.ofDictList parent rest
  | some d :: rest =>
    match Dataset.ofDict parent d with
    | Except.error e => Except.error e
    | Except.ok x =>
      match Dataset.ofDictList parent rest with
      | Except.error e => Except.error e
      | Except.ok xs => Except.ok (x :: xs)

end

/-- Serialized form of a dataset (`Dataset.to_dict`): exactly one of the
`dataset`/`subdataset` keys is present, the `sota` and `subdatasets` keys
are conditional, the rest unconditional. -/
inductive DatasetDict where
  | mk (dataset : Option String) (subdataset : Option String)
      (description : String)
      (sota : Option (List String × List SotaRowDict))
      (subdatasets : Option (List DatasetDict))
      (dataset_links : List Link) (dataset_citations : List Link)
  deriving Repr

def DatasetDict.dataset : DatasetDict → Option String
  | .mk v _ _ _ _ _ _ => v

def DatasetDict.subdataset : DatasetDict → Option String
  | .mk _ v _ _ _ _ _ => v

def DatasetDict.description : DatasetDict → String
  | .mk _ _ v _ _ _ _ => v

def DatasetDict.sota : DatasetDict → Option (List String × List SotaRowDict)
  | .mk _ _ _ v _ _ _ => v

def DatasetDict.subdatasets : DatasetDict → Option (List DatasetDict)
  | .mk _ _ _ _ v _ _ => v

def DatasetDict.dataset_links : DatasetDict → List Link
  | .mk _ _ _ _ _ v _ => v

def DatasetDict.dataset_citations : DatasetDict → List Link
  | .mk _ _ _ _ _ _ v => v

mutual

/-- `Dataset.to_dict`: key `subdataset` when `self.parent` is truthy, else
`dataset`; the `sota` block only when `sota_metrics` is non-empty; the
`subdatasets` key only when `subdatasets` is non-empty; links and
citations always emitted as separate keys. -/
def Dataset.to_dict : Dataset → DatasetDict
  | .mk dataset description parent sota_metrics sota_rows subdatasets dataset_links dataset_citations =>
    .mk (if parent then none else some dataset)
      (if parent then some dataset else none)
      description
      (if sota_metrics.isEmpty then none
        else some (sota_metrics, sota_rows.map SotaRow.to_dict))
      (if subdatasets.isEmpty then none else some (Dataset.toDictList subdatasets))
      (dataset_links.map Link.to_dict)
      (dataset_citations.map Link.to_dict)

/-- `[d.to_dict() for d in self.subdatasets]`. -/
def Dataset.toDictList : List Dataset → List DatasetDict
  | [] => []
  | d :: rest => Dataset.to_dict d :: Dataset.toDictList rest

end

/-! ## Tasks -/

/-- Input record for `Task.__init__`; `subtasks` makes it recursive. -/
inductive TaskRec where
  | mk (task : Option String) (description : Option String)
      (categories : Option (List String))
      (datasets : Option (List (Option DatasetRec)))
      (subtasks : Option (List (Option TaskRec)))
      (source_link : Option LinkRec)
  deriving Repr

def TaskRec.task : TaskRec → Option String
  | .mk v _ _ _ _ _ => v

def TaskRec.description : TaskRec → Option String
  | .mk _ v _ _ _ _ => v

def TaskRec.categories : TaskRec → Option (List String)
  | .mk _ _ v _ _ _ => v

def TaskRec.datasets : TaskRec → Option (List (Option DatasetRec))
  | .mk _ _ _ v _ _ => v

def TaskRec.subtasks : TaskRec → Option (List (Option TaskRec))
  | .mk _ _ _ _ v _ => v

def TaskRec.source_link : TaskRec → Option LinkRec
  | .mk _ _ _ _ _ v => v

/-- `Task` (`taskdb.py`, class `Task`).  As for `Dataset`, the `parent`
back-reference is kept as its truthiness only. -/
inductive Task where
  | mk (task : String) (description : String) (parent : Bool)
      (categories : List String) (datasets : List Dataset)
      (subtasks : List Task) (synonyms : List String)
      (source_link : Option Link)
  deriving Repr

def Task.task : Task → String
  | .mk v _ _ _ _ _ _ _ => v

def Task.description : Task → String
  | .mk _ v _ _ _ _ _ _ => v

def Task.parent : Task → Bool
  | .mk _ _ v _ _ _ _ _ => v

def Task.categories : Task → List String
  | .mk _ _ _ v _ _ _ _ => v

def Task.datasets : Task → List Dataset
  | .mk _ _ _ _ v _ _ _ => v

def Task.subtasks : Task → List Task
  | .mk _ _ _ _ _ v _ _ => v

def Task.synonyms : Task → List String
  | .mk _ _ _ _ _ _ v _ => v

def Task.source_link : Task → Option Link
  | .mk _ _ _ _ _ _ _ v => v

/-- Assembling a `Task` once the required name is known: any failure from
the dataset or subtask constructions propagates, otherwise the object is
built with `synonyms` empty. -/
def combineTask (name : String) (description : Option String)
    (categories : Option (List String)) (source_link : Option LinkRec) (parent : Bool)
    (dsRes : Except String (List Dataset)) (stsRes : Except String (List Task)) :
    Except String Task :=
  match dsRes with
  | Except.error e => Except.error e
  | Except.ok ds =>
    match stsRes with
    | Except.error e => Except.error e
    | Except.ok sts =>
      Except.ok (.mk name (description.getD "") parent (categories.getD [])
        ds sts [] (source_link.map Link.ofDict))

mutual

/-- `Task.__init__`: `d["task"]` is required; datasets are constructed with
`parent=None`, subtasks with `parent=self`; `synonyms` always starts
empty; `source_link` is parsed as a `Link` exactly when the key is
present. -/
def Task.ofDict (parent : Bool) : TaskRec → Except String Task
  | .mk task description categories datasets subtasks source_link =>
    match task with
    | none => Except.error "KeyError: task"
    | some name =>
      combineTask name description categories source_link parent
        (match datasets with
          | some l => Dataset.ofDictList false l
          | none => Except.ok [])
        (match subtasks with
          | some l => Task.ofDictList l
          | none => Except.ok [])

/-- The loop over `d["subtasks"]`: null entries skipped, each surviving
record constructed with `parent=self`. -/
def Task.ofDictList : List (Option TaskRec) → Except String (List Task)
  | [] => Except.ok []
  | none :: rest => Task.ofDictList rest
  | some t :: rest =>
    match Task.ofDict true t with
    | Except.error e => Except.error e
    | Except.ok x =>
      match Task.ofDictList rest with
      | Except.error e => Except.error e
      | Except.ok xs => Except.ok (x :: xs)

end

/-- Serialized form of a task (`Task.to_dict`): every key emitted
unconditionally, `source_link` as `none` when absent. -/
inductive TaskDict where
  | mk (task : String) (description : String) (categories : List String)
      (datasets : List DatasetDict) (subtasks : List TaskDict)
      (synonyms : List String) (source_link : Option Link)
  deriving Repr

def TaskDict.task : TaskDict → String
  | .mk v _ _ _ _ _ _ => v

def TaskDict.description : TaskDict → String
  | .mk _ v _ _ _ _ _ => v

def TaskDict.categories : TaskDict → List String
  | .mk _ _ v _ _ _ _ => v

def TaskDict.datasets : TaskDict → List DatasetDict
  | .mk _ _ _ v _ _ _ => v

def TaskDict.subtasks : TaskDict → List TaskDict
  | .mk _ _ _ _ v _ _ => v

def TaskDict.synonyms : TaskDict → List String
  | .mk _ _ _ _ _ v _ => v

def TaskDict.source_link : TaskDict → Option Link
  | .mk _ _ _ _ _ _ v => v

mutual

/-- `Task.to_dict`. -/
def Task.to_dict : Task → TaskDict
  | .mk task description _ categories datasets subtasks synonyms source_link =>
    .mk task description categories (Dataset.toDictList datasets)
      (Task.toDictList subtasks) synonyms (source_link.map Link.to_dict)

/-- `[t.to_dict() for t in self.subtasks]`. -/
def Task.toDictList : List Task → List TaskDict
  | [] => []
  | t :: rest => Task.to_dict t :: Task.toDictList rest

end

/-! ## The registry `TaskDb`

`TaskDb.tasks` is a Python dict from top-level task name to `Task`;
iteration over `.values()` follows insertion order and keys are unique, so
the registry is modelled as an association list. -/

/-- The registry state: insertion-ordered association list of top-level
tasks. -/
abbrev TaskDbT := List (String × Task)

/-- `name in TaskDb.tasks` / `TaskDb.tasks[name]`: lookup in the top-level
mapping. -/
def lookupTask : TaskDbT → String → Option Task
  | [], _ => none
  | (k, t) :: rest, name => if k = name then some t else lookupTask rest name

/-- The inner loop of `get_task`: `for subtask in t.subtasks: if
subtask.task == name: return subtask`. -/
def findSubtaskIn : List Task → String → Option Task
  | [], _ => none
  | st :: rest, name => if st.task = name then some st else findSubtaskIn rest name

/-- The outer fallback loop of `get_task` over the top-level tasks. -/
def findDirectSubtask : TaskDbT → String → Option Task
  | [], _ => none
  | (_, t) :: rest, name =>
    match findSubtaskIn t.subtasks name with
    | some st => some st
    | none => findDirectSubtask rest name

/-- `TaskDb.get_task`: exact top-level lookup, then a scan of every
top-level task's direct subtasks. -/
def get_task (db : TaskDbT) (name : String) : Option Task :=
  match lookupTask db name with
  | some t => some t
  | none => findDirectSubtask db name

/-- `TaskDb.add_task`: unconditional upsert (a dict assignment keeps the
key's original position when the key exists, else appends). -/
def add_task (db : TaskDbT) (name : String) (task : Task) : TaskDbT :=
  if (db.map Prod.fst).contains name then
    db.map (fun p => if p.1 = name then (p.1, task) else p)
  else db ++ [(name, task)]

/-! ## SOTA discovery -/

/-- One iteration of the dataset loop shared by `find_sota_tasks` and
`find_sota_datasets`: `if d.sota_rows: add = True` followed by the loop
over `d.subdatasets`. -/
def dataset_sets_add (add : Bool) (d : Dataset) : Bool :=
  let add := if d.sota_rows.isEmpty then add else true
  d.subdatasets.foldl (fun a sd => if sd.sota_rows.isEmpty then a else true) add

mutual

/-- `find_sota_tasks`: the task is appended (after the whole dataset loop)
when the flag is set, then the recursion visits every subtask. -/
def find_sota_tasks : Task → List Task → List Task
  | .mk task description parent categories datasets subtasks synonyms source_link, out =>
    let add := datasets.foldl dataset_sets_add false
    let out := if add then
        out ++ [Task.mk task description parent categories datasets subtasks synonyms source_link]
      else out
    find_sota_tasks_list subtasks out

/-- `for subtask in task.subtasks: find_sota_tasks(subtask, out)`. -/
def find_sota_tasks_list : List Task → List Task → List Task
  | [], out => out
  | t :: ts, out => find_sota_tasks_list ts (find_sota_tasks t out)

end

/-- `TaskDb.tasks_with_sota`. -/
def tasks_with_sota (db : TaskDbT) : List Task :=
  find_sota_tasks_list (db.map Prod.snd) []

/-- The dataset loop of `find_sota_datasets`: the `add` flag is initialised
once before the loop and never reset inside it, and `if add:
out.append(d)` runs at the end of every iteration. -/
def sota_datasets_loop : List Dataset → Bool → List Dataset → List Dataset
  | [], _, out => out
  | d :: rest, add, out =>
    let add := dataset_sets_add add d
    let out := if add then out ++ [d] else out
    sota_datasets_loop rest add out

mutual

/-- `find_sota_datasets`. -/
def find_sota_datasets : Task → List Dataset → List Dataset
  | .mk _ _ _ _ datasets subtasks _ _, out =>
    let out := sota_datasets_loop datasets false out
    find_sota_datasets_list subtasks out

/-- `for subtask in task.subtasks: find_sota_datasets(subtask, out)`. -/
def find_sota_datasets_list : List Task → List Dataset → List Dataset
  | [], out => out
  | t :: ts, out => find_sota_datasets_list ts (find_sota_datasets t out)

end

/-- `TaskDb.datasets_with_sota`. -/
def datasets_with_sota (db : TaskDbT) : List Dataset :=
  find_sota_datasets_list (db.map Prod.snd) []

/-! ## Synonym loading

`load_synonyms` reads CSV rows; file parsing is outside the embedding, so
the per-row body of the loop is modelled on an already-parsed row (a list
of CSV fields).  `row[0]` and `row[1]` are Python list indexing: an
`IndexError` when the index is out of range. -/

/-- Append a synonym to the task `get_task` resolves for `name`: the
top-level entry when the name is a top-level key, else the first matching
direct subtask (the Python code mutates the aliased `Task` object in
place). -/
def add_synonym_subtasks : List Task → String → String → List Task
  | [], _, _ => []
  | st :: rest, name, syn =>
    if st.task = name then
      (Task.mk st.task st.description st.parent st.categories st.datasets
        st.subtasks (st.synonyms ++ [syn]) st.source_link) :: rest
    else st :: add_synonym_subtasks rest name syn

/-- The fallback of `add_synonym` over top-level tasks: update the first
task owning a direct subtask named `name`. -/
def add_synonym_scan : TaskDbT → String → String → TaskDbT
  | [], _, _ => []
  | (k, t) :: rest, name, syn =>
    if (findSubtaskIn t.subtasks name).isSome then
      (k, Task.mk t.task t.description t.parent t.categories t.datasets
        (add_synonym_subtasks t.subtasks name syn) t.synonyms t.source_link) :: rest
    else (k, t) :: add_synonym_scan rest name syn

/-- `task.synonyms.append(row[1])` on the object returned by `get_task`,
expressed as a registry update. -/
def add_synonym (db : TaskDbT) (name syn : String) : TaskDbT :=
  if (lookupTask db name).isSome then
    db.map (fun p =>
      if p.1 = name then
        (p.1, Task.mk p.2.task p.2.description p.2.parent p.2.categories
          p.2.datasets p.2.subtasks (p.2.synonyms ++ [syn]) p.2.source_link)
      else p)
  else add_synonym_scan db name syn

/-- The body of the row loop in `TaskDb.load_synonyms`: `task =
TaskDb.get_task(row[0])` (raising `IndexError` on an empty row), then —
only when a task was found — `task.synonyms.append(row[1])` (raising
`IndexError` when the row has fewer than two fields). -/
def load_synonyms_row (db : TaskDbT) (row : List String) : Except String TaskDbT :=
  match row.get? 0 with
  | none => Except.error "IndexError"
  | some r0 =>
    match get_task db r0 with
    | none => Except.ok db
    | some _ =>
      match row.get? 1 with
      | none => Except.error "IndexError"
      | some syn => Except.ok (add_synonym db r0 syn)

/-! ## Characterizations used by the theorems -/

/-- The per-dataset SOTA check both discovery functions perform: the
dataset's own `sota_rows`, or those of one of its direct subdatasets, are
non-empty. -/
def dataset_has_sota (d : Dataset) : Bool :=
  !d.sota_rows.isEmpty || d.subdatasets.any (fun sd => !sd.sota_rows.isEmpty)

/-- A task qualifies for `tasks_with_sota` when one of its directly-owned
datasets passes the per-dataset check. -/
def Task.has_sota (t : Task) : Bool :=
  t.datasets.any dataset_has_sota

mutual

/-- Pre-order listing of a task tree: the task itself, then its subtasks'
trees in order. -/
def Task.preorder : Task → List Task
  | .mk task description parent categories datasets subtasks synonyms source_link =>
    Task.mk task description parent categories datasets subtasks synonyms source_link ::
      Task.preorderList subtasks

/-- Pre-order listing of a forest of tasks. -/
def Task.preorderList : List Task → List Task
  | [] => []
  | t :: ts => Task.preorder t ++ Task.preorderList ts

end

/-! ## Concrete fixtures -/

/-- A SOTA row with only the required fields. -/
def exRow : SotaRow := ⟨"model", "", "", none, [], [], []⟩

/-- Scenario of §8: Task `A` has no datasets. -/
def taskA : Task := .mk "A" "" false [] [] [] [] none

/-- Task `B` owns one dataset holding one SOTA row. -/
def taskB : Task := .mk "B" "" false [] [.mk "B-data" "" false [] [exRow] [] [] []] [] [] none

/-- Subtask `D` of task `C`, owning a dataset with a SOTA row. -/
def taskD : Task := .mk "D" "" true [] [.mk "D-data" "" false [] [exRow] [] [] []] [] [] none

/-- Task `C` has no datasets of its own, only the subtask `D`. -/
def taskC : Task := .mk "C" "" false [] [] [taskD] [] none

/-- The §8 scenario registry. -/
def exDb4 : TaskDbT := [("A", taskA), ("B", taskB), ("C", taskC)]

/-- A dataset that passes the per-dataset SOTA check. -/
def dsWithRows : Dataset := .mk "withrows" "" false [] [exRow] [] [] []

/-- A dataset with no SOTA rows and no subdatasets: it fails the
per-dataset check. -/
def dsNoRows : Dataset := .mk "norows" "" false [] [] [] [] []

/-- A registry whose single task lists a qualifying dataset before a
non-qualifying one. -/
def exDb2 : TaskDbT := [("T", .mk "T" "" false [] [dsWithRows, dsNoRows] [] [] none)]

/-- A subtask two levels below the top level. -/
def taskDeep : Task := .mk "Deep" "" true [] [] [] [] none

/-- A direct subtask holding `taskDeep`. -/
def taskMid : Task := .mk "Mid" "" true [] [] [taskDeep] [] none

/-- A top-level task holding `taskMid`. -/
def taskTop : Task := .mk "Top" "" false [] [] [taskMid] [] none

/-- Registry with a three-level task chain. -/
def exDb9 : TaskDbT := [("Top", taskTop)]

/-- A task record with `task`, `description`, `categories` and
`source_link` present. -/
def exTaskRec : TaskRec :=
  .mk (some "T") (some "desc") (some ["cat"]) none none (some ⟨some "ti", some "u"⟩)

/-- The task `Task.ofDict` builds from `exTaskRec`. -/
def exTask6 : Task := .mk "T" "desc" false ["cat"] [] [] [] (some ⟨"ti", "u"⟩)

/-- A dataset with SOTA rows but no declared `sota_metrics`. -/
def dsMetricsEmpty : Dataset := .mk "d1" "" false [] [exRow] [] [] []

/-- A dataset with both `sota_metrics` and SOTA rows. -/
def dsMetricsFull : Dataset := .mk "d2" "" false ["acc"] [exRow] [] [] []

/-- A dataset record with one surviving `dataset_links` entry and one
`dataset_citations` entry. -/
def exDsRec8 : DatasetRec :=
  .mk (some "d") none none none none
    (some [some ⟨some "l1", some "u1"⟩, none])
    (some [some ⟨some "c1", some "uc"⟩])

/-- The dataset `Dataset.ofDict` builds from `exDsRec8`. -/
def exDs8 : Dataset := .mk "d" "" false [] [] [] [⟨"l1", "u1"⟩, ⟨"c1", "uc"⟩] []

/-! ## Helper lemmas -/

/-- Inversion of a successful `combineTask`: both stage results were
successes and the task is the assembled one. -/
theorem combineTask_ok (name : String) (description : Option String)
    (categories : Option (List String)) (source_link : Option LinkRec) (parent : Bool)
    (dsRes : Except String (List Dataset)) (stsRes : Except String (List Task)) (t : Task)
    (h : combineTask name description categories source_link parent dsRes stsRes =
      Except.ok t) :
    ∃ ds sts, dsRes = Except.ok ds ∧ stsRes = Except.ok sts ∧
      t = Task.mk name (description.getD "") parent (categories.getD []) ds sts []
        (source_link.map Link.ofDict) := by
  cases dsRes with
  | error e => simp [combineTask] at h
  | ok ds =>
    cases stsRes with
    | error e => simp [combineTask] at h
    | ok sts =>
      simp only [combineTask, Except.ok.injEq] at h
      exact ⟨ds, sts, rfl, rfl, h.symm⟩

/-- Inversion of a successful `combineDataset`: both stage results were
successes and the dataset is the assembled one. -/
theorem combineDataset_ok (name : String) (description : Option String) (parent : Bool)
    (sota_metrics : List String)
    (dataset_links dataset_citations : Option (List (Option LinkRec)))
    (rowsRes : Except String (List SotaRow)) (subsRes : Except String (List Dataset))
    (ds : Dataset)
    (h : combineDataset name description parent sota_metrics dataset_links
      dataset_citations rowsRes subsRes = Except.ok ds) :
    ∃ rows subs, rowsRes = Except.ok rows ∧ subsRes = Except.ok subs ∧
      ds = Dataset.mk name (description.getD "") parent sota_metrics rows subs
        (linkListOf dataset_links ++ linkListOf dataset_citations) [] := by
  cases rowsRes with
  | error e => simp [combineDataset] at h
  | ok rows =>
    cases subsRes with
    | error e => simp [combineDataset] at h
    | ok subs =>
      simp only [combineDataset, Except.ok.injEq] at h
      exact ⟨rows, subs, rfl, rfl, h.symm⟩

/-- A fold of `if p x then a else true` just disjoins the start value with
"some element falsifies `p`". -/
theorem foldl_flag_any {α : Type} (p : α → Bool) (l : List α) (b : Bool) :
    l.foldl (fun a x => if p x then a else true) b = (b || l.any (fun x => !p x)) := by
  induction l generalizing b with
  | nil => simp
  | cons x xs ih => rw [List.foldl_cons, ih]; cases h : p x <;> simp [h]

/-- One iteration of the dataset loop disjoins the flag with the
per-dataset check. -/
theorem dataset_sets_add_eq (b : Bool) (d : Dataset) :
    dataset_sets_add b d = (b || dataset_has_sota d) := by
  unfold dataset_sets_add dataset_has_sota
  rw [foldl_flag_any]
  cases h : d.sota_rows.isEmpty <;> simp [h]

/-- The whole dataset loop computes "some dataset passes the per-dataset
check". -/
theorem foldl_dataset_sets_add (ds : List Dataset) (b : Bool) :
    ds.foldl dataset_sets_add b = (b || ds.any dataset_has_sota) := by
  induction ds generalizing b with
  | nil => simp
  | cons d rest ih => rw [List.foldl_cons, dataset_sets_add_eq, ih]; simp [Bool.or_assoc]

/-! ## Claims -/

/-- Claim C1, counterexample: the construction of a `SotaRow` from a record
containing only `model_name` does not succeed — `SotaRow.__init__` reads
`d["metrics"]` unconditionally, so it raises a `KeyError` for `metrics`. -/
theorem sotaRow_only_model_name_fails :
    SotaRow.ofDict ⟨some "m", none, none, none, none, none, none⟩ =
      Except.error "KeyError: metrics" := rfl

/-- Claim C1, amended: construction without `model_name` fails with a
missing-field error on `model_name`; construction with `model_name` but
without `metrics` fails with a missing-field error on `metrics`; and
construction from a record containing exactly `model_name` and `metrics`
succeeds with every other field at its default (empty strings, `none`
date, empty link lists) and `metrics` passed through verbatim. -/
theorem sotaRow_required_fields (d : SotaRowRec) (m : String) (ms : Metrics) :
    (d.model_name = none → SotaRow.ofDict d = Except.error "KeyError: model_name") ∧
    (d.model_name ≠ none → d.metrics = none →
      SotaRow.ofDict d = Except.error "KeyError: metrics") ∧
    SotaRow.ofDict ⟨some m, none, none, none, none, none, some ms⟩ =
      Except.ok ⟨m, "", "", none, [], [], ms⟩ := by
  refine ⟨fun h => ?_, fun h1 h2 => ?_, rfl⟩
  · simp [SotaRow.ofDict, h]
  · cases hm : d.model_name with
    | none => exact absurd hm h1
    | some mn => simp [SotaRow.ofDict, hm, h2]

/-- Claim C1, witness for the amended theorem at concrete records. -/
theorem sotaRow_required_fields_witness :
    SotaRow.ofDict ⟨none, none, none, none, none, none, none⟩ =
      Except.error "KeyError: model_name" ∧
    SotaRow.ofDict ⟨some "m", none, none, none, none, none, some []⟩ =
      Except.ok ⟨"m", "", "", none, [], [], []⟩ :=
  ⟨(sotaRow_required_fields ⟨none, none, none, none, none, none, none⟩ "m" []).1 rfl,
    (sotaRow_required_fields ⟨none, none, none, none, none, none, none⟩ "m" []).2.2⟩

/-- Claim C2: evaluating `datasets_with_sota` on a registry whose single
task owns a qualifying dataset followed by a dataset with no SOTA rows and
no subdatasets.  The second dataset fails the per-dataset check yet is
returned, because the `add` flag of `find_sota_datasets` is never reset
between iterations of the dataset loop. -/
theorem find_sota_datasets_sticky_flag :
    datasets_with_sota exDb2 = [dsWithRows, dsNoRows] ∧
    Dataset.sota_rows dsNoRows = [] ∧ Dataset.subdatasets dsNoRows = [] :=
  ⟨rfl, rfl, rfl⟩

/-- Claim C3: on a task whose evaluation yields no true positives and no
false negatives (with one false positive), the precision/recall block of
`eval_all.py` raises `ZeroDivisionError` — the recall guard divides inside
the test instead of testing the denominator. -/
theorem eval_recall_zero_division :
    eval_precision_recall 0 0 1 = Except.error "ZeroDivisionError" := rfl

/-- Claim C4, counterexample: on the §8 scenario registry,
`tasks_with_sota()` does not return `[B, C, D]`. -/
theorem tasks_with_sota_scenario_counterexample :
    tasks_with_sota exDb4 ≠ [taskB, taskC, taskD] := by
  intro h
  rw [show tasks_with_sota exDb4 = [taskB, taskD] from rfl] at h
  exact absurd (congrArg List.length h) (by decide)

/-- Claim C4, amended: on a registry with Task `A` (no datasets), Task `B`
(one dataset with one SOTA row) and Task `C` (no datasets of its own,
subtask `D` holding a dataset with a SOTA row), `tasks_with_sota()`
returns exactly `[B, D]` in pre-order: `A` is excluded, and so is `C`,
because owning a qualifying subtask does not qualify a task. -/
theorem tasks_with_sota_scenario :
    tasks_with_sota exDb4 = [taskB, taskD] := rfl

mutual

/-- `find_sota_tasks` appends exactly the qualifying tasks of the subtree,
in pre-order, to its accumulator. -/
theorem find_sota_tasks_spec : ∀ (t : Task) (out : List Task),
    find_sota_tasks t out = out ++ (Task.preorder t).filter Task.has_sota
  | .mk tk de pa ca ds sts sy sl, out => by
    rw [find_sota_tasks, find_sota_tasks_list_spec sts, foldl_dataset_sets_add]
    cases h : ds.any dataset_has_sota <;>
      simp [Task.preorder, List.filter_cons, Task.has_sota, Task.datasets, h]

/-- Forest version of `find_sota_tasks_spec`. -/
theorem find_sota_tasks_list_spec : ∀ (ts : List Task) (out : List Task),
    find_sota_tasks_list ts out = out ++ (Task.preorderList ts).filter Task.has_sota
  | [], out => by simp [find_sota_tasks_list, Task.preorderList]
  | t :: ts, out => by
    rw [find_sota_tasks_list, find_sota_tasks_spec t out, find_sota_tasks_list_spec ts,
      Task.preorderList]
    simp [List.filter_append, List.append_assoc]

end

/-- The pre-order forest listing is the flat map of the per-tree one. -/
theorem preorderList_eq_flatMap (ts : List Task) :
    Task.preorderList ts = ts.flatMap Task.preorder := by
  induction ts with
  | nil => rfl
  | cons t ts ih => rw [Task.preorderList, ih, List.flatMap_cons]

/-- Claim C5: for every registry state, `tasks_with_sota()` is exactly the
pre-order traversal of the registry's task forest (top-level tasks in
registry insertion order, each task visited before its subtasks) filtered
to the tasks having at least one directly-owned dataset whose own
`sota_rows`, or whose direct subdatasets' `sota_rows`, are non-empty. -/
theorem tasks_with_sota_characterization (db : TaskDbT) :
    tasks_with_sota db =
      ((db.map Prod.snd).flatMap Task.preorder).filter Task.has_sota := by
  rw [tasks_with_sota, find_sota_tasks_list_spec, preorderList_eq_flatMap]
  rfl

/-- Claim C6: for every task record that constructs successfully,
serializing the constructed task restores the record's `task`,
`description` and `categories` values exactly, emits `synonyms` as the
empty sequence, and emits `source_link` exactly when the key was present
in the record, carrying the link built from it (absent sub-fields
defaulted to the empty string). -/
theorem task_to_dict_round_trip (d : TaskRec) (t : Task)
    (h : Task.ofDict false d = Except.ok t) :
    (∀ s, d.task = some s → (Task.to_dict t).task = s) ∧
    (∀ s, d.description = some s → (Task.to_dict t).description = s) ∧
    (∀ c, d.categories = some c → (Task.to_dict t).categories = c) ∧
    (Task.to_dict t).synonyms = [] ∧
    (Task.to_dict t).source_link =
      d.source_link.map (fun l => Link.to_dict (Link.ofDict l)) := by
  cases d with
  | mk task description categories datasets subtasks source_link =>
    cases task with
    | none => simp [Task.ofDict.eq_def] at h
    | some name =>
      simp only [Task.ofDict.eq_def] at h
      obtain ⟨ds, sts, hds, hsts, ht⟩ := combineTask_ok _ _ _ _ _ _ _ _ h
      subst ht
      refine ⟨fun s hs => ?_, fun s hs => ?_, fun c hc => ?_, ?_, ?_⟩
      · simp only [TaskRec.task, Option.some.injEq] at hs
        simp [Task.to_dict, TaskDict.task, hs]
      · simp only [TaskRec.description] at hs
        simp [Task.to_dict, TaskDict.description, hs]
      · simp only [TaskRec.categories] at hc
        simp [Task.to_dict, TaskDict.categories, hc]
      · simp [Task.to_dict, TaskDict.synonyms]
      · simp only [Task.to_dict, TaskDict.source_link, TaskRec.source_link, Option.map_map]
        rfl

/-- Claim C6, witness at a concrete record with all four keys present. -/
theorem task_to_dict_round_trip_witness :
    (Task.to_dict exTask6).synonyms = [] ∧ (Task.to_dict exTask6).task = "T" :=
  ⟨(task_to_dict_round_trip exTaskRec exTask6 rfl).2.2.2.1,
    (task_to_dict_round_trip exTaskRec exTask6 rfl).1 "T" rfl⟩

/-- Claim C7: `Dataset.to_dict` omits the `sota` block exactly when
`sota_metrics` is empty — regardless of `sota_rows`, whose entries are
then absent from the output — and otherwise emits the block with the
metrics and the serialized rows. -/
theorem dataset_to_dict_sota_block (ds : Dataset) :
    (Dataset.sota_metrics ds = [] → (Dataset.to_dict ds).sota = none) ∧
    (Dataset.sota_metrics ds ≠ [] →
      (Dataset.to_dict ds).sota =
        some (Dataset.sota_metrics ds, (Dataset.sota_rows ds).map SotaRow.to_dict)) := by
  cases ds with
  | mk dataset description parent sota_metrics sota_rows subdatasets dl dc =>
    constructor
    · intro h
      simp only [Dataset.sota_metrics] at h
      subst h
      simp [Dataset.to_dict.eq_def, DatasetDict.sota]
    · intro h
      cases hm : sota_metrics with
      | nil => exact absurd (by simpa [Dataset.sota_metrics] using hm) h
      | cons m ms =>
        subst hm
        simp [Dataset.to_dict.eq_def, DatasetDict.sota, Dataset.sota_metrics,
          Dataset.sota_rows]

/-- Claim C7, witness: a dataset with rows but empty metrics loses its
rows; a dataset with metrics emits the block. -/
theorem dataset_to_dict_sota_block_witness :
    (Dataset.to_dict dsMetricsEmpty).sota = none ∧
    (Dataset.to_dict dsMetricsFull).sota =
      some (["acc"], [SotaRow.to_dict exRow]) :=
  ⟨(dataset_to_dict_sota_block dsMetricsEmpty).1 rfl,
    (dataset_to_dict_sota_block dsMetricsFull).2 (by decide)⟩

/-- Claim C8: for every dataset record carrying a `dataset_citations`
sequence that constructs successfully, the non-null citation entries are
appended onto the internal `dataset_links` after the entries from
`dataset_links`, the stored `dataset_citations` stays empty, and
`to_dict` emits the merged list under `dataset_links` next to an
always-empty `dataset_citations` key. -/
theorem dataset_links_merge (p : Bool) (d : DatasetRec) (ds : Dataset)
    (cs : List (Option LinkRec))
    (hc : d.dataset_citations = some cs)
    (h : Dataset.ofDict p d = Except.ok ds) :
    Dataset.dataset_links ds = linkListOf d.dataset_links ++ linkListOf (some cs) ∧
    Dataset.dataset_citations ds = [] ∧
    (Dataset.to_dict ds).dataset_links = (Dataset.dataset_links ds).map Link.to_dict ∧
    (Dataset.to_dict ds).dataset_citations = [] := by
  cases d with
  | mk dataset subdataset description sota subdatasets dataset_links dataset_citations =>
    simp only [DatasetRec.dataset_citations] at hc
    subst hc
    cases subdataset with
    | none =>
      cases dataset with
      | none => simp [Dataset.ofDict.eq_def] at h
      | some nm =>
        simp only [Dataset.ofDict.eq_def] at h
        obtain ⟨rows, subs, hr, hsub, hds⟩ := combineDataset_ok _ _ _ _ _ _ _ _ _ h
        subst hds
        simp [Dataset.dataset_links, Dataset.dataset_citations, Dataset.to_dict.eq_def,
          DatasetDict.dataset_links, DatasetDict.dataset_citations, DatasetRec.dataset_links]
    | some snm =>
      simp only [Dataset.ofDict.eq_def] at h
      obtain ⟨rows, subs, hr, hsub, hds⟩ := combineDataset_ok _ _ _ _ _ _ _ _ _ h
      subst hds
      simp [Dataset.dataset_links, Dataset.dataset_citations, Dataset.to_dict.eq_def,
        DatasetDict.dataset_links, DatasetDict.dataset_citations, DatasetRec.dataset_links]

/-- Claim C8, witness at a record with one surviving link and one
citation. -/
theorem dataset_links_merge_witness :
    Dataset.dataset_links exDs8 = [⟨"l1", "u1"⟩, ⟨"c1", "uc"⟩] ∧
    Dataset.dataset_citations exDs8 = [] :=
  ⟨((dataset_links_merge false exDsRec8 exDs8 [some ⟨some "c1", some "uc"⟩] rfl rfl).1).trans
      rfl,
    (dataset_links_merge false exDsRec8 exDs8 [some ⟨some "c1", some "uc"⟩] rfl rfl).2.1⟩

/-- The inner subtask scan is a `find?` over the subtask list. -/
theorem findSubtaskIn_eq_find? (l : List Task) (name : String) :
    findSubtaskIn l name = l.find? (fun st => decide (st.task = name)) := by
  induction l with
  | nil => rfl
  | cons st rest ih =>
    by_cases h : st.task = name
    · simp [findSubtaskIn, List.find?_cons_of_pos, h]
    · simp only [findSubtaskIn, if_neg h, ih]
      rw [List.find?_cons_of_neg]
      simp [h]

/-- The fallback loop of `get_task` is a `find?` over the concatenation of
every top-level task's direct subtasks, in registry order. -/
theorem findDirectSubtask_eq_find? (db : TaskDbT) (name : String) :
    findDirectSubtask db name =
      ((db.map Prod.snd).flatMap Task.subtasks).find? (fun st => decide (st.task = name)) := by
  induction db with
  | nil => rfl
  | cons p rest ih =>
    obtain ⟨k, t⟩ := p
    rw [List.map_cons, List.flatMap_cons, List.find?_append]
    cases hf : findSubtaskIn t.subtasks name with
    | none =>
      rw [findSubtaskIn_eq_find?] at hf
      simp [findDirectSubtask, findSubtaskIn_eq_find?, hf, ih]
    | some st =>
      rw [findSubtaskIn_eq_find?] at hf
      simp [findDirectSubtask, findSubtaskIn_eq_find?, hf]

/-- Claim C9: `get_task` returns the top-level task under the exact name
when one exists; otherwise the first direct subtask (scanning top-level
tasks in registry order, each task's direct subtasks in order) whose
`task` field equals the name; and it returns `none` exactly when the name
matches neither a top-level task nor any direct subtask — in particular
for names occurring only two or more levels deep. -/
theorem get_task_characterization (db : TaskDbT) (name : String) :
    (get_task db name =
      match lookupTask db name with
      | some t => some t
      | none =>
        ((db.map Prod.snd).flatMap Task.subtasks).find? (fun st => decide (st.task = name))) ∧
    (get_task db name = none ↔
      lookupTask db name = none ∧
        ∀ t ∈ db.map Prod.snd, ∀ st ∈ t.subtasks, st.task ≠ name) := by
  have h1 : get_task db name =
      match lookupTask db name with
      | some t => some t
      | none =>
        ((db.map Prod.snd).flatMap Task.subtasks).find? (fun st => decide (st.task = name)) := by
    rw [get_task]
    cases lookupTask db name with
    | some t => rfl
    | none => simp [findDirectSubtask_eq_find?]
  refine ⟨h1, ?_⟩
  rw [h1]
  cases hlk : lookupTask db name with
  | some t => simp
  | none =>
    simp only [true_and]
    rw [List.find?_eq_none]
    constructor
    · intro hall t ht st hst
      have := hall st (List.mem_flatMap.mpr ⟨t, ht, hst⟩)
      simpa using this
    · intro hall st hst
      obtain ⟨t, ht, hst2⟩ := List.mem_flatMap.mp hst
      simpa using hall t ht st hst2

/-- Claim C9, witness: a name occurring only two levels deep resolves to
`none`. -/
theorem get_task_characterization_witness :
    get_task exDb9 "Deep" = none :=
  (get_task_characterization exDb9 "Deep").2.mpr ⟨rfl, by decide⟩

/-- Claim C10: the row loop of `load_synonyms` indexes `row[0]` before the
lookup and `row[1]` after a successful lookup: an empty row raises
`IndexError`, and a one-field row whose single field resolves to a task
raises `IndexError` instead of being skipped. -/
theorem load_synonyms_row_index_error (db : TaskDbT) (row : List String) :
    (row = [] → load_synonyms_row db row = Except.error "IndexError") ∧
    (∀ s t, row = [s] → get_task db s = some t →
      load_synonyms_row db row = Except.error "IndexError") := by
  constructor
  · intro h
    subst h
    rfl
  · intro s t hrow hg
    subst hrow
    simp [load_synonyms_row, hg]

/-- Claim C10, witness: the empty row and the one-field row naming the
resolvable task `Top`. -/
theorem load_synonyms_row_index_error_witness :
    load_synonyms_row exDb9 [] = Except.error "IndexError" ∧
    load_synonyms_row exDb9 ["Top"] = Except.error "IndexError" :=
  ⟨(load_synonyms_row_index_error exDb9 []).1 rfl,
    (load_synonyms_row_index_error exDb9 ["Top"]).2 "Top" taskTop rfl rfl⟩

end SotaExtractor
